import Mathlib

/-!
Shallow embedding of the HR record lifecycle core of the data-generator
repository (`base_data_generator.py`, `main.py`, `event.py`).

Modelling conventions:

* The department→positions catalog (`DEPARTMENT_POSITION_MAPPING`, imported
  from `hr.mapping`, an external collaborator of the core) is a parameter of
  type `Catalog = List (String × List String)`; Python dict lookup is
  association-list lookup, `.keys()` is `List.map Prod.fst`.
* The random source (faker / `random`) is an oracle `RandomSource` of seed
  streams.  `fake.random_element(elements=l)` is `chooseE l k`: it returns the
  element of `l` at index `k % l.length` and fails (IndexError) on an empty
  sequence; any realization of the uniform draw corresponds to some seed `k`.
  `fake.random_int(min=lo, max=hi)` is `random_int lo hi k`, always inside
  `[lo, hi]`.
* Python's `round` applied to the value of an arithmetic expression such as
  `salary * 1.1 / 1000` is modelled as round-half-to-even of the exact
  rational value, computed in integer arithmetic by `round_half_even num den`
  (the rational being `num / den`).  Python evaluates the expression in binary
  floating point, which agrees with the exact value except at exact `.5` ties
  of the rational under the `1.05`/`1.1` multipliers; every concrete input
  appearing in a theorem below is tie-free, and the general theorems only use
  the `±1/2` rounding window, which holds for either semantics.
* A Python dict record is the structure `Record`; the three event fields that
  are absent until an event mutation are `Option String` (`none` = absent).
* Fallible operations return `Except String`; a raised Python exception is
  `Except.error` with a message resembling the Python one.
-/

/-- The external department→positions catalog: an association list from
department name to the list of valid positions of that department
(`DEPARTMENT_POSITION_MAPPING`). -/
def Catalog : Type := List (String × List String)

instance : DecidableEq Catalog := by
  unfold Catalog
  infer_instance

instance : Membership (String × List String) Catalog := by
  unfold Catalog
  infer_instance

/-- One employee record (the flat dict of §3 of the spec).  `event_type`,
`event_date` and `resignation_date` are absent (`none`) until set. -/
structure Record where
  first_name : String
  last_name : String
  email : String
  phone_number : String
  address : String
  date_of_birth : String
  department : String
  position : String
  hire_date : String
  salary : Int
  event_type : Option String
  event_date : Option String
  resignation_date : Option String
deriving DecidableEq

/-- Oracle for the external random source: one stream per purpose, indexed by
the invocation counter, so that every realization of the program's random
draws corresponds to some oracle. -/
structure RandomSource where
  first_name : Nat → String
  last_name : Nat → String
  email : Nat → String
  phone_number : Nat → String
  address : Nat → String
  date_of_birth : Nat → String
  date_between : Nat → String
  dept_seed : Nat → Nat
  pos_seed : Nat → Nat
  salary_seed : Nat → Nat
  pick_seed : Nat → Nat
  event_type_seed : Nat

/-- The values of the closed `EventType` StrEnum, in declaration order
(`auto()` on a `StrEnum` yields the lower-cased member name). -/
def EventTypeValues : List String :=
  ["hire", "resignation", "promotion", "salary_increase", "department_change"]

/-- The values of the closed `UpdateType` StrEnum (the four non-HIRE kinds). -/
def UpdateTypeValues : List String :=
  ["resignation", "promotion", "salary_increase", "department_change"]

/-- Round-half-to-even (Python `round`) of the exact rational `num / den`,
for `den > 0`, computed in integer arithmetic: with quotient
`q = num / den` (floor) and remainder `r = num % den`, round down when
`r < den/2`, up when `r > den/2`, and to the even neighbour at a tie. -/
def round_half_even (num den : Int) : Int :=
  if 2 * Int.emod num den < den then Int.ediv num den
  else if den < 2 * Int.emod num den then Int.ediv num den + 1
  else if Int.emod (Int.ediv num den) 2 = 0 then Int.ediv num den
  else Int.ediv num den + 1

/-- `fake.random_int(min=lo, max=hi)`: an integer in `[lo, hi]`, here the one
determined by seed `k`. -/
def random_int (lo hi : Int) (k : Nat) : Int :=
  lo + Int.emod (k : Int) (hi - lo + 1)

/-- The salary update expression `round(salary * m / 1000) * 1000` of
`event.py` and `main.py`, with multiplier `m = mnum / mden`
(`1.2 = 12/10`, `1.1 = 11/10`, `1.05 = 105/100`). -/
def bump_salary (s : Int) (mnum mden : Int) : Int :=
  round_half_even (s * mnum) (mden * 1000) * 1000

/-- The salary generation expression
`round(fake.random_int(min=35000, max=120000) / 1000) * 1000`. -/
def gen_salary (k : Nat) : Int :=
  round_half_even (random_int 35000 120000 k) 1000 * 1000

/-- `fake.random_element(elements=l)` with seed `k`: the element at index
`k % l.length`; IndexError on an empty sequence. -/
def chooseE {α : Type} (l : List α) (k : Nat) : Except String α :=
  match l.get? (k % l.length) with
  | some a => Except.ok a
  | none => Except.error "IndexError: Cannot choose from an empty sequence"

/-- Python dict indexing `DEPARTMENT_POSITION_MAPPING[d]`: association-list
lookup, KeyError when the key is absent. -/
def lookupE (cat : Catalog) (d : String) : Except String (List String) :=
  match List.lookup d cat with
  | some ps => Except.ok ps
  | none => Except.error "KeyError"

/-- Sequential loop-and-append over a list, stopping at the first failure
(the shape of every `for record in input_data:` loop of the source). -/
def mapME {α β : Type} (f : α → Except String β) : List α → Except String (List β)
  | [] => Except.ok []
  | a :: as =>
    match f a with
    | Except.error e => Except.error e
    | Except.ok b =>
      match mapME f as with
      | Except.error e => Except.error e
      | Except.ok bs => Except.ok (b :: bs)

/-- Like `mapME` but passing the position of each element (the invocation
counter for the per-record random draws inside a loop). -/
def mapIdxE {α β : Type} (f : Nat → α → Except String β) :
    Nat → List α → Except String (List β)
  | _, [] => Except.ok []
  | i, a :: as =>
    match f i a with
    | Except.error e => Except.error e
    | Except.ok b =>
      match mapIdxE f (i + 1) as with
      | Except.error e => Except.error e
      | Except.ok bs => Except.ok (b :: bs)

instance {ε α : Type} [DecidableEq ε] [DecidableEq α] : DecidableEq (Except ε α) :=
  fun a b =>
    match a, b with
    | Except.error e, Except.error f =>
      if h : e = f then isTrue (by rw [h]) else
        isFalse (fun hh => h (Except.error.inj hh))
    | Except.error _, Except.ok _ => isFalse (fun hh => Except.noConfusion hh)
    | Except.ok _, Except.error _ => isFalse (fun hh => Except.noConfusion hh)
    | Except.ok x, Except.ok y =>
      if h : x = y then isTrue (by rw [h]) else
        isFalse (fun hh => h (Except.ok.inj hh))

/-- One loop body of `HRDataGenerator._generate_data_in_dict` (identical in
`base_data_generator.py` and `main.py` except that only the former adds an
`event_type` field, passed here as `et`): draw a department from the catalog
keys, a position from that department's list, the identity fields from the
fake-value source, and the rounded salary. -/
def generate_record (cat : Catalog) (rs : RandomSource) (et : Option String)
    (i : Nat) : Except String Record :=
  match chooseE (cat.map Prod.fst) (rs.dept_seed i) with
  | Except.error e => Except.error e
  | Except.ok department =>
    match lookupE cat department with
    | Except.error e => Except.error e
    | Except.ok positions =>
      match chooseE positions (rs.pos_seed i) with
      | Except.error e => Except.error e
      | Except.ok position =>
        Except.ok
          { first_name := rs.first_name i
            last_name := rs.last_name i
            email := rs.email i
            phone_number := rs.phone_number i
            address := rs.address i
            date_of_birth := rs.date_of_birth i
            department := department
            position := position
            hire_date := rs.date_between i
            salary := gen_salary (rs.salary_seed i)
            event_type := et
            event_date := none
            resignation_date := none }

/-- `HRDataGenerator._generate_data_in_dict(count)` (the `generate` method
returns it unchanged for `OutputFormat.DICT`): `count` independent records.
`et = some "hire"` gives the `base_data_generator.py` variant,
`et = none` the `main.py` variant. -/
def generate_data_in_dict (cat : Catalog) (rs : RandomSource) (et : Option String)
    (count : Nat) : Except String (List Record) :=
  mapME (generate_record cat rs et) (List.range count)

/-- The single per-invocation event-kind draw of `generate_event`:
`fake.random_element(elements=list(EventType))`. -/
def drawn_event_type (rs : RandomSource) : String :=
  EventTypeValues.get
    ⟨rs.event_type_seed % EventTypeValues.length, Nat.mod_lt _ (by decide)⟩

/-- One loop body of the DEPARTMENT_CHANGE branch of `generate_event`
(`event.py`): new department from the full key set, new position from the new
department's list, salary re-rolled fresh. -/
def dc_record (cat : Catalog) (rs : RandomSource) (today : String)
    (i : Nat) (record : Record) : Except String Record :=
  match chooseE (cat.map Prod.fst) (rs.dept_seed i) with
  | Except.error e => Except.error e
  | Except.ok new_department =>
    match lookupE cat new_department with
    | Except.error e => Except.error e
    | Except.ok ps =>
      match chooseE ps (rs.pos_seed i) with
      | Except.error e => Except.error e
      | Except.ok new_position =>
        Except.ok
          { record with
            event_type := some "department_change"
            department := new_department
            position := new_position
            salary := gen_salary (rs.salary_seed i)
            event_date := some today }

/-- The event dispatch of `generate_event` (`event.py`, the if/elif chain on
the drawn `event_type` over the sampled `input_data`), including the final
`return []` fall-through. -/
def mutate_batch (cat : Catalog) (rs : RandomSource) (today : String)
    (event_type : String) (input_data : List Record) :
    Except String (List Record) :=
  if event_type = "hire" then
    match generate_data_in_dict cat rs (some "hire") 1 with
    | Except.error e => Except.error e
    | Except.ok l =>
      match l with
      | new_employee :: _ =>
        Except.ok [{ new_employee with
                     event_type := some "hire", hire_date := today }]
      | [] => Except.error "IndexError: list index out of range"
  else if event_type = "resignation" then
    Except.ok (input_data.map (fun record =>
      { record with event_type := some "resignation", event_date := some today }))
  else if event_type = "promotion" then
    Except.ok (input_data.map (fun record =>
      { record with
        event_type := some "promotion"
        salary := bump_salary record.salary 12 10
        event_date := some today }))
  else if event_type = "salary_increase" then
    Except.ok (input_data.map (fun record =>
      { record with
        event_type := some "salary_increase"
        salary := bump_salary record.salary 11 10
        event_date := some today }))
  else if event_type = "department_change" then
    mapIdxE (dc_record cat rs today) 0 input_data
  else
    Except.ok []

/-- Modelled from the spec: `random.sample(pool, k)` (the Python standard
library, external to the repository) draws `k` elements without replacement,
uniformly over the pool; here the draw at step `t` removes the element at
index `seed t % |remaining pool|`. -/
def sampleAux {α : Type} : List α → Nat → (Nat → Nat) → Nat → List α
  | _, 0, _, _ => []
  | pool, k + 1, seed, t =>
    match pool.get? (seed t % pool.length) with
    | some a => a :: sampleAux (pool.eraseIdx (seed t % pool.length)) k seed (t + 1)
    | none => []

/-- Modelled from the spec: `random.sample(pool, sample_size)` requires
`sample_size ≤ |pool|` and raises ValueError otherwise; on success it returns
`sample_size` elements drawn without replacement. -/
def sample {α : Type} (pool : List α) (sample_size : Nat) (seed : Nat → Nat) :
    Except String (List α) :=
  if sample_size ≤ pool.length then Except.ok (sampleAux pool sample_size seed 0)
  else Except.error "ValueError: Sample larger than population or is negative"

/-- `generate_event` (`event.py`): draw one event kind for the whole
invocation, sample the working subset from the pool (the pool itself is the
freshly generated or CSV/JSON-loaded data), then dispatch on the drawn kind. -/
def generate_event (cat : Catalog) (rs : RandomSource) (today : String)
    (pool : List Record) (sample_size : Nat) : Except String (List Record) :=
  match sample pool sample_size rs.pick_seed with
  | Except.error e => Except.error e
  | Except.ok input_data =>
    mutate_batch cat rs today (drawn_event_type rs) input_data

/-- One iteration body of `HRDataGenerator.update_data` (`main.py`): stamp
`event_date`, then the if/elif chain on `update_type`; an unknown kind leaves
the record otherwise untouched (no error). -/
def update_record (cat : Catalog) (rs : RandomSource) (today update_type : String)
    (t : Nat) (record0 : Record) : Except String Record :=
  let record := { record0 with event_date := some today }
  if update_type = "resignation" then
    Except.ok { record with resignation_date := some today }
  else if update_type = "promotion" then
    match lookupE cat record.department with
    | Except.error e => Except.error e
    | Except.ok positions =>
      let possible_other_positions :=
        positions.filter (fun pos => pos != record.position)
      if possible_other_positions = [] then
        Except.ok { record with salary := bump_salary record.salary 11 10 }
      else
        match chooseE possible_other_positions (rs.pos_seed t) with
        | Except.error e => Except.error e
        | Except.ok p =>
          Except.ok { record with
                      position := p
                      salary := bump_salary record.salary 11 10 }
  else if update_type = "salary_increase" then
    Except.ok { record with salary := bump_salary record.salary 105 100 }
  else if update_type = "department_change" then
    let possible_departments :=
      (cat.map Prod.fst).filter (fun dept => dept != record.department)
    if possible_departments = [] then
      Except.ok record
    else
      match chooseE possible_departments (rs.dept_seed t) with
      | Except.error e => Except.error e
      | Except.ok new_department =>
        match lookupE cat new_department with
        | Except.error e => Except.error e
        | Except.ok ps =>
          match chooseE ps (rs.pos_seed t) with
          | Except.error e => Except.error e
          | Except.ok p =>
            Except.ok { record with
                        department := new_department
                        position := p
                        salary := bump_salary record.salary 11 10 }
  else
    Except.ok record

/-- The loop of `update_data`: at each step pick `fake.random_element` of the
(current) input list, mutate that record in place, and remember which slot
was picked (`record` is a reference into the input list, so the returned
entries alias the final state of the picked slots). -/
def update_data_loop (cat : Catalog) (rs : RandomSource) (today update_type : String) :
    Nat → Nat → List Record → List Nat → Except String (List Record × List Nat)
  | 0, _, state, picked => Except.ok (state, picked)
  | n + 1, t, state, picked =>
    match state.get? (rs.pick_seed t % state.length) with
    | none => Except.error "IndexError: Cannot choose from an empty sequence"
    | some record =>
      match update_record cat rs today update_type t record with
      | Except.error e => Except.error e
      | Except.ok record2 =>
        update_data_loop cat rs today update_type n (t + 1)
          (state.set (rs.pick_seed t % state.length) record2)
          (picked ++ [rs.pick_seed t % state.length])

/-- `HRDataGenerator.update_data(input_data, update_type, count)` (`main.py`).
Returns the pair (final state of the input list after the in-place mutations,
the returned `updated_data` list); since each appended `record` aliases its
dict in the input list, `updated_data` holds the final state of each picked
slot, one entry per pick. -/
def update_data (cat : Catalog) (rs : RandomSource) (today : String)
    (input_data : List Record) (update_type : String)
    (count_of_records_to_update : Nat) :
    Except String (List Record × List Record) :=
  match update_data_loop cat rs today update_type
      count_of_records_to_update 0 input_data [] with
  | Except.error e => Except.error e
  | Except.ok (final, picked) =>
    Except.ok (final, picked.filterMap (fun i => final.get? i))

/-- A catalog as the Python dict provides it: nonempty, duplicate-free keys,
and every department has at least one position. -/
def WellFormedCatalog (cat : Catalog) : Prop :=
  cat ≠ [] ∧ (cat.map Prod.fst).Nodup ∧ ∀ p ∈ cat, p.2 ≠ ([] : List String)

instance (cat : Catalog) : Decidable (WellFormedCatalog cat) := by
  unfold WellFormedCatalog
  infer_instance

/-- The §3 salary invariant: a multiple of 1000 inside `[35000, 120000]`. -/
def salary_ok (s : Int) : Prop :=
  Int.emod s 1000 = 0 ∧ 35000 ≤ s ∧ s ≤ 120000

instance (s : Int) : Decidable (salary_ok s) := by
  unfold salary_ok
  infer_instance

/-- The §3 department/position coupling invariant: the record's position is
in the catalog entry of the record's department. -/
def position_ok (cat : Catalog) (r : Record) : Prop :=
  r.position ∈ (List.lookup r.department cat).getD []

instance (cat : Catalog) (r : Record) : Decidable (position_ok cat r) := by
  unfold position_ok
  infer_instance

/-- Concrete catalog used by the closed instances below (the §8 scenario). -/
def cat0 : Catalog := [("Engineering", ["Engineer", "Manager"]), ("Sales", ["Rep"])]

/-- Concrete random-source oracle used by the closed instances below. -/
def rs0 : RandomSource where
  first_name := fun _ => "Ada"
  last_name := fun _ => "Day"
  email := fun _ => "ada.example.org"
  phone_number := fun _ => "555"
  address := fun _ => "1 Main St"
  date_of_birth := fun _ => "1990-01-01"
  date_between := fun _ => "2020-01-01"
  dept_seed := fun _ => 0
  pos_seed := fun _ => 0
  salary_seed := fun _ => 0
  pick_seed := fun _ => 0
  event_type_seed := 0

/-- Concrete date stamp used by the closed instances below. -/
def today0 : String := "2026-10-12"

/-- Concrete base record (Engineering / Engineer, salary 40000). -/
def rA : Record where
  first_name := "Ada"
  last_name := "Day"
  email := "ada.example.org"
  phone_number := "555"
  address := "1 Main St"
  date_of_birth := "1990-01-01"
  department := "Engineering"
  position := "Engineer"
  hire_date := "2020-01-01"
  salary := 40000
  event_type := none
  event_date := none
  resignation_date := none

/-- Concrete record at the salary upper bound 120000. -/
def rB : Record := { rA with salary := 120000 }

/-- Concrete record carrying a HIRE event stamp, as `base_data_generator.py`
produces them. -/
def rC : Record := { rA with event_type := some "hire" }

/-- Concrete two-element pool for the sampling instances. -/
def pool0 : List Record := [rA, rB]

/-- Concrete record produced by `generate_record cat0 rs0 (some "hire") i`. -/
def ghire : Record where
  first_name := "Ada"
  last_name := "Day"
  email := "ada.example.org"
  phone_number := "555"
  address := "1 Main St"
  date_of_birth := "1990-01-01"
  department := "Engineering"
  position := "Engineer"
  hire_date := "2020-01-01"
  salary := 35000
  event_type := some "hire"
  event_date := none
  resignation_date := none

/-- Concrete output of the batch RESIGNATION mutation on `rA`. -/
def r_resig0 : Record :=
  { rA with event_type := some "resignation", event_date := some today0 }

/-- Concrete output of the batch PROMOTION mutation on `rA`. -/
def r_promo_b0 : Record :=
  { rA with event_type := some "promotion", salary := 48000, event_date := some today0 }

/-- Concrete output of the batch SALARY_INCREASE mutation on `rA`. -/
def r_salinc_b0 : Record :=
  { rA with event_type := some "salary_increase", salary := 44000, event_date := some today0 }

/-- Concrete output of the update-in-place PROMOTION on `rA`. -/
def r_promo_u0 : Record :=
  { rA with event_date := some today0, position := "Manager", salary := 44000 }

/-- Concrete output of the update-in-place SALARY_INCREASE on `rA`. -/
def r_salinc_u0 : Record :=
  { rA with event_date := some today0, salary := 42000 }

/-- Concrete output of the batch DEPARTMENT_CHANGE mutation on `rA`. -/
def r_dc_b0 : Record :=
  { rA with
    event_type := some "department_change"
    department := "Engineering"
    position := "Engineer"
    salary := 35000
    event_date := some today0 }

/-- Concrete output of the update-in-place DEPARTMENT_CHANGE on `rA`. -/
def r_dc_u0 : Record :=
  { rA with
    event_date := some today0
    department := "Sales"
    position := "Rep"
    salary := 44000 }

/-- Concrete HIRE-event output record of `generate_event cat0 rs0 today0`. -/
def ghire2 : Record := { ghire with hire_date := today0 }

theorem round_half_even_lower (num den : Int) (hden : 0 < den) :
    2 * num - den ≤ 2 * (round_half_even num den * den) := by
  have hsum : den * Int.ediv num den + Int.emod num den = num := Int.ediv_add_emod num den
  have hr0 : 0 ≤ Int.emod num den := Int.emod_nonneg _ (by omega)
  have hrd : Int.emod num den < den := Int.emod_lt_of_pos _ hden
  unfold round_half_even
  split_ifs with h1 h2 h3 <;> nlinarith [hsum, hr0, hrd]

theorem round_half_even_upper (num den : Int) (hden : 0 < den) :
    2 * (round_half_even num den * den) ≤ 2 * num + den := by
  have hsum : den * Int.ediv num den + Int.emod num den = num := Int.ediv_add_emod num den
  have hr0 : 0 ≤ Int.emod num den := Int.emod_nonneg _ (by omega)
  have hrd : Int.emod num den < den := Int.emod_lt_of_pos _ hden
  unfold round_half_even
  split_ifs with h1 h2 h3 <;> nlinarith [hsum, hr0, hrd]

theorem bump_salary_emod (s mnum mden : Int) : Int.emod (bump_salary s mnum mden) 1000 = 0 :=
  Int.mul_emod_left _ _

theorem bump_salary_gt_11_10 (s : Int) (hs : 35000 ≤ s) : s < bump_salary s 11 10 := by
  have h := round_half_even_lower (s * 11) (10 * 1000) (by norm_num)
  unfold bump_salary
  omega

theorem bump_salary_gt_12_10 (s : Int) (hs : 35000 ≤ s) : s < bump_salary s 12 10 := by
  have h := round_half_even_lower (s * 12) (10 * 1000) (by norm_num)
  unfold bump_salary
  omega

theorem bump_salary_gt_105_100 (s : Int) (hs : 35000 ≤ s) : s < bump_salary s 105 100 := by
  have h := round_half_even_lower (s * 105) (100 * 1000) (by norm_num)
  unfold bump_salary
  omega

theorem random_int_mem (lo hi : Int) (k : Nat) (h : lo ≤ hi) :
    lo ≤ random_int lo hi k ∧ random_int lo hi k ≤ hi := by
  unfold random_int
  have h1 : 0 ≤ Int.emod (k : Int) (hi - lo + 1) := Int.emod_nonneg _ (by omega)
  have h2 : Int.emod (k : Int) (hi - lo + 1) < hi - lo + 1 :=
    Int.emod_lt_of_pos _ (by omega)
  omega

theorem gen_salary_ok (k : Nat) : salary_ok (gen_salary k) := by
  obtain ⟨hlo, hhi⟩ := random_int_mem 35000 120000 k (by norm_num)
  have h1 := round_half_even_lower (random_int 35000 120000 k) 1000 (by norm_num)
  have h2 := round_half_even_upper (random_int 35000 120000 k) 1000 (by norm_num)
  refine ⟨Int.mul_emod_left _ _, ?_, ?_⟩ <;> unfold gen_salary <;> omega

theorem chooseE_ok_mem {α : Type} {l : List α} {k : Nat} {a : α}
    (h : chooseE l k = Except.ok a) : a ∈ l := by
  unfold chooseE at h
  cases hg : l.get? (k % l.length) with
  | none => rw [hg] at h; cases h
  | some b =>
    rw [hg] at h
    cases h
    exact List.get?_mem hg

theorem chooseE_total {α : Type} (l : List α) (k : Nat) (h : l ≠ []) :
    ∃ a, chooseE l k = Except.ok a ∧ a ∈ l := by
  have hlen : 0 < l.length := List.length_pos.mpr h
  have hlt : k % l.length < l.length := Nat.mod_lt _ hlen
  refine ⟨l.get ⟨k % l.length, hlt⟩, ?_, List.get_mem l _ hlt⟩
  unfold chooseE
  rw [List.get?_eq_get hlt]

theorem lookup_mem {cat : Catalog} {d : String} {ps : List String}
    (h : List.lookup d cat = some ps) : (d, ps) ∈ cat := by
  induction cat with
  | nil => cases h
  | cons p t ih =>
    obtain ⟨k, v⟩ := p
    cases hbeq : d == k with
    | true =>
      simp only [List.lookup_cons, hbeq] at h
      injection h with hv
      have hd : d = k := beq_iff_eq.mp hbeq
      subst hd
      subst hv
      exact List.mem_cons_self _ _
    | false =>
      simp only [List.lookup_cons, hbeq] at h
      exact List.mem_cons_of_mem _ (ih h)

theorem lookup_total {cat : Catalog} {d : String}
    (h : d ∈ cat.map Prod.fst) : ∃ ps, List.lookup d cat = some ps := by
  induction cat with
  | nil => simp at h
  | cons p t ih =>
    obtain ⟨k, v⟩ := p
    cases hbeq : d == k with
    | true => exact ⟨v, by simp only [List.lookup_cons, hbeq]⟩
    | false =>
      have hdk : d ≠ k := by simpa using hbeq
      have hmt : d ∈ t.map Prod.fst := by
        simp only [List.map_cons, List.mem_cons] at h
        rcases h with h1 | h1
        · exact absurd h1 hdk
        · exact h1
      obtain ⟨ps, hps⟩ := ih hmt
      exact ⟨ps, by simp only [List.lookup_cons, hbeq, hps]⟩

theorem lookupE_ok {cat : Catalog} {d : String} {ps : List String}
    (h : lookupE cat d = Except.ok ps) : List.lookup d cat = some ps := by
  unfold lookupE at h
  cases hl : List.lookup d cat with
  | none => rw [hl] at h; cases h
  | some qs => rw [hl] at h; cases h; rfl

theorem lookupE_total {cat : Catalog} {d : String} (h : d ∈ cat.map Prod.fst) :
    ∃ ps, lookupE cat d = Except.ok ps ∧ List.lookup d cat = some ps := by
  obtain ⟨ps, hps⟩ := lookup_total h
  exact ⟨ps, by unfold lookupE; rw [hps], hps⟩

theorem mapME_ok_of_all {α β : Type} (f : α → Except String β) (P : β → Prop)
    (xs : List α) (h : ∀ a ∈ xs, ∃ b, f a = Except.ok b ∧ P b) :
    ∃ l, mapME f xs = Except.ok l ∧ l.length = xs.length ∧ ∀ b ∈ l, P b := by
  induction xs with
  | nil => exact ⟨[], rfl, rfl, by simp⟩
  | cons a as ih =>
    obtain ⟨b, hb, hPb⟩ := h a (List.mem_cons_self a as)
    obtain ⟨l, hl, hlen, hP⟩ := ih (fun x hx => h x (List.mem_cons_of_mem a hx))
    refine ⟨b :: l, ?_, by simp [hlen], ?_⟩
    · unfold mapME
      rw [hb, hl]
    · intro c hc
      rcases List.mem_cons.mp hc with h1 | h1
      · exact h1 ▸ hPb
      · exact hP c h1

theorem mapME_ok_mem {α β : Type} (f : α → Except String β) (Q : β → Prop)
    (hf : ∀ a b, f a = Except.ok b → Q b) :
    ∀ (xs : List α) (l : List β), mapME f xs = Except.ok l → ∀ b ∈ l, Q b := by
  intro xs
  induction xs with
  | nil =>
    intro l h b hb
    cases h
    cases hb
  | cons a as ih =>
    intro l h b hb
    unfold mapME at h
    cases hfa : f a with
    | error e => rw [hfa] at h; cases h
    | ok c =>
      rw [hfa] at h
      cases hrest : mapME f as with
      | error e => rw [hrest] at h; cases h
      | ok cs =>
        rw [hrest] at h
        cases h
        rcases List.mem_cons.mp hb with h1 | h1
        · exact h1 ▸ hf a c hfa
        · exact ih cs hrest b h1

theorem mapIdxE_ok_mem {α β : Type} (f : Nat → α → Except String β) (Q : β → Prop)
    (hf : ∀ i a b, f i a = Except.ok b → Q b) :
    ∀ (xs : List α) (i0 : Nat) (l : List β),
      mapIdxE f i0 xs = Except.ok l → ∀ b ∈ l, Q b := by
  intro xs
  induction xs with
  | nil =>
    intro i0 l h b hb
    cases h
    cases hb
  | cons a as ih =>
    intro i0 l h b hb
    unfold mapIdxE at h
    cases hfa : f i0 a with
    | error e => rw [hfa] at h; cases h
    | ok c =>
      rw [hfa] at h
      cases hrest : mapIdxE f (i0 + 1) as with
      | error e => rw [hrest] at h; cases h
      | ok cs =>
        rw [hrest] at h
        cases h
        rcases List.mem_cons.mp hb with h1 | h1
        · exact h1 ▸ hf i0 a c hfa
        · exact ih (i0 + 1) cs hrest b h1

theorem generate_record_ok {cat : Catalog} {rs : RandomSource} {et : Option String}
    {i : Nat} {r : Record} (h : generate_record cat rs et i = Except.ok r) :
    r.salary = gen_salary (rs.salary_seed i) ∧ r.department ∈ cat.map Prod.fst ∧
    position_ok cat r ∧ r.event_type = et := by
  unfold generate_record at h
  split at h
  · cases h
  · rename_i d hd
    split at h
    · cases h
    · rename_i ps hps
      split at h
      · cases h
      · rename_i p hp
        cases h
        refine ⟨rfl, chooseE_ok_mem hd, ?_, rfl⟩
        show p ∈ (List.lookup d cat).getD []
        rw [lookupE_ok hps]
        exact chooseE_ok_mem hp

theorem generate_record_total (cat : Catalog) (rs : RandomSource) (et : Option String)
    (i : Nat) (hwf : WellFormedCatalog cat) :
    ∃ r, generate_record cat rs et i = Except.ok r ∧ salary_ok r.salary ∧
      r.department ∈ cat.map Prod.fst ∧ position_ok cat r ∧ r.event_type = et := by
  obtain ⟨hne, hnd, hposne⟩ := hwf
  have hkeys : cat.map Prod.fst ≠ [] := by
    intro hk
    exact hne (List.map_eq_nil_iff.mp hk)
  obtain ⟨d, hd, hdm⟩ := chooseE_total (cat.map Prod.fst) (rs.dept_seed i) hkeys
  obtain ⟨ps, hps, hlk⟩ := lookupE_total hdm
  have hpsne : ps ≠ [] := hposne (d, ps) (lookup_mem hlk)
  obtain ⟨p, hp, hpm⟩ := chooseE_total ps (rs.pos_seed i) hpsne
  refine ⟨{ first_name := rs.first_name i
            last_name := rs.last_name i
            email := rs.email i
            phone_number := rs.phone_number i
            address := rs.address i
            date_of_birth := rs.date_of_birth i
            department := d
            position := p
            hire_date := rs.date_between i
            salary := gen_salary (rs.salary_seed i)
            event_type := et
            event_date := none
            resignation_date := none }, ?_, gen_salary_ok _, hdm, ?_, rfl⟩
  · unfold generate_record
    simp only [hd, hps, hp]
  · show p ∈ (List.lookup d cat).getD []
    rw [hlk]
    exact hpm

theorem generate_data_one {cat : Catalog} {rs : RandomSource} {et : Option String}
    {l : List Record} (h : generate_data_in_dict cat rs et 1 = Except.ok l) :
    ∃ g, generate_record cat rs et 0 = Except.ok g ∧ l = [g] := by
  unfold generate_data_in_dict at h
  rw [show List.range 1 = [0] from rfl] at h
  unfold mapME at h
  split at h
  · cases h
  · rename_i g hg
    unfold mapME at h
    cases h
    exact ⟨g, hg, rfl⟩

theorem dc_record_ok {cat : Catalog} {rs : RandomSource} {today : String}
    {i : Nat} {record b : Record}
    (h : dc_record cat rs today i record = Except.ok b) :
    b.event_type = some "department_change" ∧ b.department ∈ cat.map Prod.fst ∧
    position_ok cat b ∧ b.salary = gen_salary (rs.salary_seed i) ∧
    b.event_date = some today := by
  unfold dc_record at h
  split at h
  · cases h
  · rename_i d hd
    split at h
    · cases h
    · rename_i ps hps
      split at h
      · cases h
      · rename_i p hp
        cases h
        refine ⟨rfl, chooseE_ok_mem hd, ?_, rfl, rfl⟩
        show p ∈ (List.lookup d cat).getD []
        rw [lookupE_ok hps]
        exact chooseE_ok_mem hp

theorem update_record_cases {cat : Catalog} {rs : RandomSource}
    {today ut : String} {t : Nat} {r r2 : Record}
    (h : update_record cat rs today ut t r = Except.ok r2) :
    r2.event_type = r.event_type ∧ r2.event_date = some today ∧
    r2.first_name = r.first_name ∧ r2.hire_date = r.hire_date ∧
    (r2.salary = r.salary ∨ r2.salary = bump_salary r.salary 11 10 ∨
      r2.salary = bump_salary r.salary 105 100) := by
  unfold update_record at h
  dsimp only at h
  split at h
  · cases h
    exact ⟨rfl, rfl, rfl, rfl, Or.inl rfl⟩
  · split at h
    · split at h
      · cases h
      · split at h
        · cases h
          exact ⟨rfl, rfl, rfl, rfl, Or.inr (Or.inl rfl)⟩
        · split at h
          · cases h
          · cases h
            exact ⟨rfl, rfl, rfl, rfl, Or.inr (Or.inl rfl)⟩
    · split at h
      · cases h
        exact ⟨rfl, rfl, rfl, rfl, Or.inr (Or.inr rfl)⟩
      · split at h
        · split at h
          · cases h
            exact ⟨rfl, rfl, rfl, rfl, Or.inl rfl⟩
          · split at h
            · cases h
            · split at h
              · cases h
              · split at h
                · cases h
                · cases h
                  exact ⟨rfl, rfl, rfl, rfl, Or.inr (Or.inl rfl)⟩
        · cases h
          exact ⟨rfl, rfl, rfl, rfl, Or.inl rfl⟩

theorem update_record_promotion_salary {cat : Catalog} {rs : RandomSource}
    {today : String} {t : Nat} {r r2 : Record}
    (h : update_record cat rs today "promotion" t r = Except.ok r2) :
    r2.salary = bump_salary r.salary 11 10 := by
  unfold update_record at h
  dsimp only at h
  rw [if_neg (by decide), if_pos rfl] at h
  split at h
  · cases h
  · split at h
    · cases h
      rfl
    · split at h
      · cases h
      · cases h
        rfl

theorem update_record_salinc_salary {cat : Catalog} {rs : RandomSource}
    {today : String} {t : Nat} {r r2 : Record}
    (h : update_record cat rs today "salary_increase" t r = Except.ok r2) :
    r2.salary = bump_salary r.salary 105 100 := by
  unfold update_record at h
  dsimp only at h
  rw [if_neg (by decide), if_neg (by decide), if_pos rfl] at h
  cases h
  rfl

theorem exists_mem_ne {l : List String} (hn : l.Nodup) (hl : 1 < l.length)
    (x : String) : ∃ d ∈ l, d ≠ x := by
  cases l with
  | nil => simp at hl
  | cons a l2 =>
    cases l2 with
    | nil => simp at hl
    | cons b t =>
      by_cases hax : a = x
      · refine ⟨b, List.mem_cons_of_mem _ (List.mem_cons_self _ _), ?_⟩
        intro hbx
        have hanb : a ∉ b :: t := (List.nodup_cons.mp hn).1
        have hab : a = b := hax.trans hbx.symm
        rw [hab] at hanb
        exact hanb (List.mem_cons_self _ _)
      · exact ⟨a, List.mem_cons_self _ _, hax⟩

theorem cons_eraseIdx_perm {α : Type} :
    ∀ (l : List α) (i : Nat) (h : i < l.length),
      List.Perm (l.get ⟨i, h⟩ :: l.eraseIdx i) l := by
  intro l
  induction l with
  | nil =>
    intro i h
    simp at h
  | cons a t ih =>
    intro i h
    cases i with
    | zero =>
      show List.Perm (a :: t) (a :: t)
      exact List.Perm.refl _
    | succ i =>
      have h2 : i < t.length := by simpa using h
      show List.Perm (t.get ⟨i, h2⟩ :: a :: t.eraseIdx i) (a :: t)
      exact List.Perm.trans (List.Perm.swap a (t.get ⟨i, h2⟩) (t.eraseIdx i))
        ((ih i h2).cons a)

theorem sampleAux_length {α : Type} :
    ∀ (k : Nat) (pool : List α) (seed : Nat → Nat) (t : Nat), k ≤ pool.length →
      (sampleAux pool k seed t).length = k := by
  intro k
  induction k with
  | zero =>
    intro pool seed t h
    rfl
  | succ n ih =>
    intro pool seed t h
    have hlen : 0 < pool.length := by omega
    have hlt : seed t % pool.length < pool.length := Nat.mod_lt _ hlen
    have herase : (pool.eraseIdx (seed t % pool.length)).length = pool.length - 1 := by
      rw [List.length_eraseIdx, if_pos hlt]
    have hrw : sampleAux pool (n + 1) seed t =
        pool.get ⟨seed t % pool.length, hlt⟩ ::
          sampleAux (pool.eraseIdx (seed t % pool.length)) n seed (t + 1) := by
      conv_lhs => rw [sampleAux]
      rw [List.get?_eq_get hlt]
    rw [hrw, List.length_cons, ih _ seed (t + 1) (by rw [herase]; omega)]

theorem sampleAux_subperm {α : Type} :
    ∀ (k : Nat) (pool : List α) (seed : Nat → Nat) (t : Nat),
      List.Subperm (sampleAux pool k seed t) pool := by
  intro k
  induction k with
  | zero =>
    intro pool seed t
    exact List.nil_subperm
  | succ n ih =>
    intro pool seed t
    unfold sampleAux
    cases hg : pool.get? (seed t % pool.length) with
    | none =>
      exact List.nil_subperm
    | some a =>
      show List.Subperm
        (a :: sampleAux (pool.eraseIdx (seed t % pool.length)) n seed (t + 1)) pool
      obtain ⟨hlt, hget⟩ := List.get?_eq_some.mp hg
      obtain ⟨u, hu1, hu2⟩ := ih (pool.eraseIdx (seed t % pool.length)) seed (t + 1)
      have hperm := cons_eraseIdx_perm pool (seed t % pool.length) hlt
      rw [hget] at hperm
      exact List.Subperm.trans ⟨a :: u, hu1.cons a, hu2.cons₂ a⟩ hperm.subperm

theorem mutate_batch_event_type {cat : Catalog} {rs : RandomSource} {today et : String}
    {input out : List Record} (h : mutate_batch cat rs today et input = Except.ok out) :
    (∀ y ∈ out, y.event_type = some et) ∧
    (et = "hire" → ∃ g, generate_record cat rs (some "hire") 0 = Except.ok g ∧
      out = [{ g with event_type := some "hire", hire_date := today }]) := by
  unfold mutate_batch at h
  split_ifs at h with h1 h2 h3 h4 h5
  · subst h1
    split at h
    · cases h
    · rename_i l hg
      split at h
      · rename_i g rest
        cases h
        obtain ⟨g0, hg0, hleq⟩ := generate_data_one hg
        have hgg : g = g0 := by
          injection hleq with hh1 hh2
        subst hgg
        constructor
        · intro y hy
          rcases List.mem_cons.mp hy with hy1 | hy1
          · rw [hy1]
          · cases hy1
        · intro _
          exact ⟨g, hg0, rfl⟩
      · cases h
  · subst h2
    cases h
    refine ⟨?_, fun hh => absurd hh h1⟩
    intro y hy
    rcases List.mem_map.mp hy with ⟨x, hx, hxy⟩
    rw [← hxy]
  · subst h3
    cases h
    refine ⟨?_, fun hh => absurd hh h1⟩
    intro y hy
    rcases List.mem_map.mp hy with ⟨x, hx, hxy⟩
    rw [← hxy]
  · subst h4
    cases h
    refine ⟨?_, fun hh => absurd hh h1⟩
    intro y hy
    rcases List.mem_map.mp hy with ⟨x, hx, hxy⟩
    rw [← hxy]
  · subst h5
    refine ⟨?_, fun hh => absurd hh h1⟩
    exact mapIdxE_ok_mem _ (fun b => b.event_type = some "department_change")
      (fun i a b hab => (dc_record_ok hab).1) _ _ _ h
  · cases h
    exact ⟨fun y hy => absurd hy (List.not_mem_nil y), fun hh => absurd hh h1⟩

/-- C1: for every count `n ≥ 0` and well-formed catalog, the DICT-format
`generate(n)` (i.e. `_generate_data_in_dict`, in either of its two copies)
returns exactly `n` records, and every returned record has a salary that is a
multiple of 1000 within `[35000, 120000]`, a department that is a key of the
catalog, and a position that is an element of the catalog entry of its
department. -/
theorem c1_generate_dict_spec (cat : Catalog) (rs : RandomSource)
    (et : Option String) (n : Nat) (hwf : WellFormedCatalog cat) :
    ∃ l, generate_data_in_dict cat rs et n = Except.ok l ∧ l.length = n ∧
      ∀ r ∈ l, salary_ok r.salary ∧ r.department ∈ cat.map Prod.fst ∧
        position_ok cat r := by
  obtain ⟨l, hl, hlen, hP⟩ :=
    mapME_ok_of_all (generate_record cat rs et)
      (fun r => salary_ok r.salary ∧ r.department ∈ cat.map Prod.fst ∧
        position_ok cat r)
      (List.range n)
      (fun i _ => by
        obtain ⟨r, hr1, hr2, hr3, hr4, hr5⟩ := generate_record_total cat rs et i hwf
        exact ⟨r, hr1, hr2, hr3, hr4⟩)
  exact ⟨l, hl, by rw [hlen, List.length_range], hP⟩

/-- Witness for C1 at the concrete §8 catalog, oracle `rs0` and count 2. -/
theorem c1_generate_dict_spec_witness :
    ∃ l, generate_data_in_dict cat0 rs0 (some "hire") 2 = Except.ok l ∧
      l.length = 2 ∧ ∀ r ∈ l, salary_ok r.salary ∧
        r.department ∈ cat0.map Prod.fst ∧ position_ok cat0 r :=
  c1_generate_dict_spec cat0 rs0 (some "hire") 2 (by decide)

/-- C2 counterexample: the claim "salary stays within [35000, 120000] after
every mutation" fails.  The in-bounds salary 120000 becomes 126000 after a
SALARY_INCREASE update (`round(120000 * 1.05 / 1000) * 1000 = 126000`). -/
theorem c2_counterexample :
    salary_ok rB.salary ∧
    update_record cat0 rs0 today0 "salary_increase" 0 rB =
      Except.ok { rB with event_date := some today0, salary := 126000 } ∧
    ¬ salary_ok ({ rB with event_date := some today0, salary := 126000 } : Record).salary :=
  ⟨by decide, rfl, by decide⟩

/-- C2 (amended): at creation the salary is a multiple of 1000 within
[35000, 120000]; after every mutation of either path (given in-bounds input
salaries) the salary is still a multiple of 1000 and at least 35000, but the
upper bound 120000 need not be preserved by the increase mutations. -/
theorem c2_salary_amended (cat : Catalog) (rs : RandomSource)
    (today et ut : String) (n t : Nat) (r r2 : Record)
    (gl input out : List Record)
    (hgen : generate_data_in_dict cat rs (some "hire") n = Except.ok gl)
    (hbatch : mutate_batch cat rs today et input = Except.ok out)
    (hupd : update_record cat rs today ut t r = Except.ok r2)
    (hin : ∀ x ∈ input, salary_ok x.salary)
    (hr : salary_ok r.salary) :
    (∀ x ∈ gl, salary_ok x.salary) ∧
    (∀ y ∈ out, Int.emod y.salary 1000 = 0 ∧ 35000 ≤ y.salary) ∧
    (Int.emod r2.salary 1000 = 0 ∧ 35000 ≤ r2.salary) := by
  refine ⟨?_, ?_, ?_⟩
  · exact mapME_ok_mem _ (fun b => salary_ok b.salary)
      (fun a b hb => by
        show salary_ok b.salary
        rw [(generate_record_ok hb).1]
        exact gen_salary_ok _) _ gl hgen
  · unfold mutate_batch at hbatch
    split_ifs at hbatch with h1 h2 h3 h4 h5
    · split at hbatch
      · cases hbatch
      · rename_i l hg
        split at hbatch
        · rename_i g rest
          cases hbatch
          obtain ⟨g0, hg0, hleq⟩ := generate_data_one hg
          have hgg : g = g0 := by
            injection hleq with hh1 hh2
          intro y hy
          rcases List.mem_cons.mp hy with hy1 | hy1
          · subst hy1
            have hsok : salary_ok g.salary := by
              rw [hgg, (generate_record_ok hg0).1]
              exact gen_salary_ok _
            exact ⟨hsok.1, hsok.2.1⟩
          · cases hy1
        · cases hbatch
    · cases hbatch
      intro y hy
      rcases List.mem_map.mp hy with ⟨x, hx, hxy⟩
      subst hxy
      exact ⟨(hin x hx).1, (hin x hx).2.1⟩
    · cases hbatch
      intro y hy
      rcases List.mem_map.mp hy with ⟨x, hx, hxy⟩
      subst hxy
      refine ⟨bump_salary_emod _ _ _, ?_⟩
      exact le_of_lt (lt_of_le_of_lt (hin x hx).2.1
        (bump_salary_gt_12_10 x.salary (hin x hx).2.1))
    · cases hbatch
      intro y hy
      rcases List.mem_map.mp hy with ⟨x, hx, hxy⟩
      subst hxy
      refine ⟨bump_salary_emod _ _ _, ?_⟩
      exact le_of_lt (lt_of_le_of_lt (hin x hx).2.1
        (bump_salary_gt_11_10 x.salary (hin x hx).2.1))
    · exact mapIdxE_ok_mem _ (fun b => Int.emod b.salary 1000 = 0 ∧ 35000 ≤ b.salary)
        (fun i a b hab => by
          show Int.emod b.salary 1000 = 0 ∧ 35000 ≤ b.salary
          rw [(dc_record_ok hab).2.2.2.1]
          exact ⟨(gen_salary_ok _).1, (gen_salary_ok _).2.1⟩) _ _ _ hbatch
    · cases hbatch
      intro y hy
      cases hy
  · obtain ⟨-, -, -, -, hsal⟩ := update_record_cases hupd
    rcases hsal with hs | hs | hs
    · rw [hs]
      exact ⟨hr.1, hr.2.1⟩
    · rw [hs]
      refine ⟨bump_salary_emod _ _ _, ?_⟩
      exact le_of_lt (lt_of_le_of_lt hr.2.1 (bump_salary_gt_11_10 _ hr.2.1))
    · rw [hs]
      refine ⟨bump_salary_emod _ _ _, ?_⟩
      exact le_of_lt (lt_of_le_of_lt hr.2.1 (bump_salary_gt_105_100 _ hr.2.1))

/-- Witness for C2 (amended) at concrete inputs: creation, a batch
RESIGNATION and an update SALARY_INCREASE on `rA`. -/
theorem c2_salary_amended_witness :
    (∀ x ∈ [ghire], salary_ok x.salary) ∧
    (∀ y ∈ [r_resig0], Int.emod y.salary 1000 = 0 ∧ 35000 ≤ y.salary) ∧
    (Int.emod r_salinc_u0.salary 1000 = 0 ∧ 35000 ≤ r_salinc_u0.salary) :=
  c2_salary_amended cat0 rs0 today0 "resignation" "salary_increase" 1 0 rA
    r_salinc_u0 [ghire] [rA] [r_resig0] rfl rfl rfl (by decide) (by decide)

/-- C3 counterexample: the claim "post-mutation event_type equals the
requested kind in the update-in-place path" fails.  A PROMOTION update on a
record carrying event_type "hire" leaves event_type at "hire". -/
theorem c3_counterexample :
    update_record cat0 rs0 today0 "promotion" 0 rC =
      Except.ok { rC with event_date := some today0, position := "Manager", salary := 44000 } ∧
    ({ rC with event_date := some today0, position := "Manager", salary := 44000 } : Record).event_type ≠
      some "promotion" :=
  ⟨rfl, by decide⟩

/-- C3 (amended): in the batch `generate_event` path every produced record's
event_type equals the dispatched kind; the update-in-place `update_data` path
never writes event_type, leaving it at its prior value (it stamps event_date
instead). -/
theorem c3_event_type_amended (cat : Catalog) (rs : RandomSource)
    (today et ut : String) (t : Nat) (r r2 : Record) (input out : List Record)
    (hne : et ≠ "hire")
    (hbatch : mutate_batch cat rs today et input = Except.ok out)
    (hupd : update_record cat rs today ut t r = Except.ok r2) :
    (∀ y ∈ out, y.event_type = some et) ∧ r2.event_type = r.event_type :=
  ⟨(mutate_batch_event_type hbatch).1, (update_record_cases hupd).1⟩

/-- Witness for C3 (amended) at a concrete batch RESIGNATION and update
SALARY_INCREASE on `rA`. -/
theorem c3_event_type_amended_witness :
    (∀ y ∈ [r_resig0], y.event_type = some "resignation") ∧
    r_salinc_u0.event_type = rA.event_type :=
  c3_event_type_amended cat0 rs0 today0 "resignation" "salary_increase" 0 rA
    r_salinc_u0 [rA] [r_resig0] (by decide) rfl rfl

/-- C4: PROMOTION and SALARY_INCREASE strictly increase the salary in both
the batch variant (multipliers 1.2 / 1.1) and the update-in-place variant
(multipliers 1.1 / 1.05), for any in-bounds input salary; and the 1.10
PROMOTION multiplier applied to salary 50000 yields exactly 55000. -/
theorem c4_strict_increase (cat : Catalog) (rs : RandomSource) (today : String)
    (t : Nat) (r rbp rbs rup rus : Record)
    (hs : salary_ok r.salary)
    (h1 : mutate_batch cat rs today "promotion" [r] = Except.ok [rbp])
    (h2 : mutate_batch cat rs today "salary_increase" [r] = Except.ok [rbs])
    (h3 : update_record cat rs today "promotion" t r = Except.ok rup)
    (h4 : update_record cat rs today "salary_increase" t r = Except.ok rus) :
    (r.salary < rbp.salary ∧ r.salary < rbs.salary ∧
     r.salary < rup.salary ∧ r.salary < rus.salary) ∧
    (r.salary = 50000 → rup.salary = 55000) := by
  have hbp : rbp.salary = bump_salary r.salary 12 10 := by
    unfold mutate_batch at h1
    rw [if_neg (by decide), if_neg (by decide), if_pos rfl] at h1
    simp only [List.map_cons, List.map_nil, Except.ok.injEq, List.cons.injEq,
      and_true] at h1
    rw [← h1]
  have hbs : rbs.salary = bump_salary r.salary 11 10 := by
    unfold mutate_batch at h2
    rw [if_neg (by decide), if_neg (by decide), if_neg (by decide), if_pos rfl] at h2
    simp only [List.map_cons, List.map_nil, Except.ok.injEq, List.cons.injEq,
      and_true] at h2
    rw [← h2]
  have hup := update_record_promotion_salary h3
  have hus := update_record_salinc_salary h4
  refine ⟨⟨?_, ?_, ?_, ?_⟩, ?_⟩
  · rw [hbp]
    exact bump_salary_gt_12_10 _ hs.2.1
  · rw [hbs]
    exact bump_salary_gt_11_10 _ hs.2.1
  · rw [hup]
    exact bump_salary_gt_11_10 _ hs.2.1
  · rw [hus]
    exact bump_salary_gt_105_100 _ hs.2.1
  · intro h50
    rw [hup, h50]
    decide

/-- Witness for C4 at salary 40000 (Engineering / Engineer, oracle `rs0`). -/
theorem c4_strict_increase_witness :
    (rA.salary < r_promo_b0.salary ∧ rA.salary < r_salinc_b0.salary ∧
     rA.salary < r_promo_u0.salary ∧ rA.salary < r_salinc_u0.salary) ∧
    (rA.salary = 50000 → r_promo_u0.salary = 55000) :=
  c4_strict_increase cat0 rs0 today0 0 rA r_promo_b0 r_salinc_b0 r_promo_u0
    r_salinc_u0 (by decide) rfl rfl rfl rfl

/-- C5: after a DEPARTMENT_CHANGE mutation the record's position is an
element of the catalog entry of its (new) department, in both variants; and
in the update-in-place variant the new department differs from the prior one
whenever the catalog has more than one (distinct) department key. -/
theorem c5_department_change (cat : Catalog) (rs : RandomSource) (today : String)
    (t : Nat) (r ru : Record) (out : List Record)
    (hpos : position_ok cat r)
    (hb : mutate_batch cat rs today "department_change" [r] = Except.ok out)
    (hu : update_record cat rs today "department_change" t r = Except.ok ru) :
    (∀ y ∈ out, position_ok cat y) ∧ position_ok cat ru ∧
    ((cat.map Prod.fst).Nodup → 1 < (cat.map Prod.fst).length →
      ru.department ≠ r.department) := by
  refine ⟨?_, ?_, ?_⟩
  · unfold mutate_batch at hb
    rw [if_neg (by decide), if_neg (by decide), if_neg (by decide),
      if_neg (by decide), if_pos rfl] at hb
    exact mapIdxE_ok_mem _ (position_ok cat)
      (fun i a b hab => (dc_record_ok hab).2.2.1) _ _ _ hb
  · unfold update_record at hu
    dsimp only at hu
    rw [if_neg (by decide), if_neg (by decide), if_neg (by decide), if_pos rfl] at hu
    split at hu
    · cases hu
      exact hpos
    · split at hu
      · cases hu
      · rename_i nd hnd
        split at hu
        · cases hu
        · rename_i ps hps
          split at hu
          · cases hu
          · rename_i p hp
            cases hu
            show p ∈ (List.lookup nd cat).getD []
            rw [lookupE_ok hps]
            exact chooseE_ok_mem hp
  · intro hnodup hlen
    unfold update_record at hu
    dsimp only at hu
    rw [if_neg (by decide), if_neg (by decide), if_neg (by decide), if_pos rfl] at hu
    split at hu
    · rename_i hfil
      exfalso
      obtain ⟨d, hd, hdr⟩ := exists_mem_ne hnodup hlen r.department
      have hdm : d ∈ List.filter (fun dept => dept != r.department) (cat.map Prod.fst) :=
        List.mem_filter.mpr ⟨hd, bne_iff_ne.mpr hdr⟩
      rw [hfil] at hdm
      cases hdm
    · split at hu
      · cases hu
      · rename_i nd hnd
        split at hu
        · cases hu
        · split at hu
          · cases hu
          · cases hu
            show nd ≠ r.department
            have hmem := chooseE_ok_mem hnd
            exact bne_iff_ne.mp (List.mem_filter.mp hmem).2

/-- Witness for C5 at the concrete catalog `cat0` and record `rA`. -/
theorem c5_department_change_witness :
    (∀ y ∈ [r_dc_b0], position_ok cat0 y) ∧ position_ok cat0 r_dc_u0 ∧
    ((cat0.map Prod.fst).Nodup → 1 < (cat0.map Prod.fst).length →
      r_dc_u0.department ≠ rA.department) :=
  c5_department_change cat0 rs0 today0 0 rA r_dc_u0 [r_dc_b0] (by decide) rfl rfl

/-- C6 (code bug): on an event kind outside both closed enums the code does
NOT fail with an invalid-argument error: the batch dispatch of
`generate_event` falls through to an empty ok-result and `update_data`
silently returns the picked record with only event_date stamped. -/
theorem c6_unknown_kind_no_error :
    mutate_batch cat0 rs0 today0 "sabbatical" [rA] = Except.ok [] ∧
    update_data cat0 rs0 today0 [rA] "sabbatical" 1 =
      Except.ok ([{ rA with event_date := some today0 }],
                 [{ rA with event_date := some today0 }]) ∧
    "sabbatical" ∉ EventTypeValues ∧ "sabbatical" ∉ UpdateTypeValues :=
  ⟨rfl, rfl, by decide, by decide⟩

/-- C7: `random.sample(pool, sample_size)` (spec-modelled, the standard
library being external) returns, when `sample_size ≤ |pool|`, a list of
exactly `sample_size` elements that is a sub-permutation of the pool (without
replacement: no pool element is used more often than it occurs), and fails
with the out-of-range ValueError whenever `sample_size > |pool|`. -/
theorem c7_sample_spec {α : Type} (pool : List α) (sample_size : Nat)
    (seed : Nat → Nat) :
    (sample_size ≤ pool.length →
      sample pool sample_size seed = Except.ok (sampleAux pool sample_size seed 0) ∧
      (sampleAux pool sample_size seed 0).length = sample_size ∧
      List.Subperm (sampleAux pool sample_size seed 0) pool) ∧
    (pool.length < sample_size →
      sample pool sample_size seed =
        Except.error "ValueError: Sample larger than population or is negative") := by
  constructor
  · intro hk
    refine ⟨?_, sampleAux_length _ _ _ _ hk, sampleAux_subperm _ _ _ _⟩
    unfold sample
    rw [if_pos hk]
  · intro hk
    unfold sample
    rw [if_neg (by omega)]

/-- Witness for C7 on the two-element pool `pool0`: sampling 2 succeeds
without replacement, sampling 3 raises the ValueError. -/
theorem c7_sample_spec_witness :
    (sample pool0 2 (fun _ => 0) = Except.ok (sampleAux pool0 2 (fun _ => 0) 0) ∧
      (sampleAux pool0 2 (fun _ => 0) 0).length = 2 ∧
      List.Subperm (sampleAux pool0 2 (fun _ => 0) 0) pool0) ∧
    sample pool0 3 (fun _ => 0) =
      Except.error "ValueError: Sample larger than population or is negative" :=
  ⟨(c7_sample_spec pool0 2 (fun _ => 0)).1 (by decide),
   (c7_sample_spec pool0 3 (fun _ => 0)).2 (by decide)⟩

/-- C8: a RESIGNATION mutation is a pure frame update.  The batch variant
changes exactly event_type and event_date; the update-in-place variant
changes exactly event_date and resignation_date; every other field —
salary, position, department, and all identity and contact fields — is
carried over from the input record unchanged. -/
theorem c8_resignation_frame (cat : Catalog) (rs : RandomSource) (today : String)
    (t : Nat) (r : Record) :
    mutate_batch cat rs today "resignation" [r] =
      Except.ok [{ r with event_type := some "resignation", event_date := some today }] ∧
    update_record cat rs today "resignation" t r =
      Except.ok { r with event_date := some today, resignation_date := some today } :=
  ⟨rfl, rfl⟩

/-- C9: each `generate_event` invocation draws one event kind from the
closed enum; every record of a successful result carries exactly that drawn
kind; and when the drawn kind is HIRE the result is one freshly
factory-generated record (independent of the sampled pool) with hire_date
set to today and event_type set to HIRE. -/
theorem c9_single_drawn_kind (cat : Catalog) (rs : RandomSource) (today : String)
    (pool out : List Record) (sample_size : Nat)
    (hout : generate_event cat rs today pool sample_size = Except.ok out) :
    drawn_event_type rs ∈ EventTypeValues ∧
    (∀ r ∈ out, r.event_type = some (drawn_event_type rs)) ∧
    (drawn_event_type rs = "hire" →
      ∃ g, generate_record cat rs (some "hire") 0 = Except.ok g ∧
        out = [{ g with event_type := some "hire", hire_date := today }]) := by
  unfold generate_event at hout
  split at hout
  · cases hout
  · have hmb := mutate_batch_event_type hout
    exact ⟨List.get_mem _ _ _, hmb.1, hmb.2⟩

/-- Witness for C9: oracle `rs0` draws HIRE and the invocation returns the
single fresh record with hire_date `today0`. -/
theorem c9_single_drawn_kind_witness :
    drawn_event_type rs0 ∈ EventTypeValues ∧
    (∀ r ∈ [ghire2], r.event_type = some (drawn_event_type rs0)) ∧
    (drawn_event_type rs0 = "hire" →
      ∃ g, generate_record cat0 rs0 (some "hire") 0 = Except.ok g ∧
        [ghire2] = [{ g with event_type := some "hire", hire_date := today0 }]) :=
  c9_single_drawn_kind cat0 rs0 today0 [] [ghire2] 0 rfl

/-- C10: `update_data` picks each record to update by an independent draw
from the full input list (with replacement), mutating in place; with a
single-record input and count 2 the same record instance is picked twice,
accumulates two SALARY_INCREASE bumps (40000 → 42000 → 44000), and the
returned list holds that one (twice-bumped, aliased) record twice. -/
theorem c10_update_with_replacement_aliasing :
    rA.salary = 40000 ∧
    update_data cat0 rs0 today0 [rA] "salary_increase" 2 =
      Except.ok ([{ rA with event_date := some today0, salary := 44000 }],
                 [{ rA with event_date := some today0, salary := 44000 },
                  { rA with event_date := some today0, salary := 44000 }]) ∧
    bump_salary rA.salary 105 100 = 42000 ∧ bump_salary 42000 105 100 = 44000 :=
  ⟨rfl, rfl, by decide, by decide⟩
